import Mathlib

/-!
Shallow embedding of the VaultFace finance dashboard's aggregation and
reporting code (TypeScript/React over Firestore), together with proofs about
the claims of its specification.

Conventions of the embedding:
* A JS number is modelled as `JSNum`: either NaN or an exact rational
  (`ℚ` stands in for the float, following the spec's exact decimal-equivalent
  summation semantics; infinities are not modelled).
* A JS `Date` is `JSDate`: a valid instant (epoch milliseconds, as an `Int`)
  or the Invalid Date object.  Calendar field accessors (`getFullYear`,
  `getMonth`, `getDate`) are computed from the epoch day via the standard
  civil-from-days algorithm; the engine contract that `getMonth` lies in
  0..11 is reflected by the final `% 12` range coercion.
* The JS engine's `new Date(string)` parser is a platform primitive, not code
  of this repository.  Functions that call it take a parser argument
  `(p : String → JSDate)`; `newDateModel` is a concrete executable fragment
  of it (strict `YYYY-MM-DD` only, everything else Invalid) used to evaluate
  theorems at concrete inputs.
* Raw Firestore date fields are `RawDate` (null/undefined, string, Timestamp
  wrapper, seconds-only object, native Date, or any other shape), and raw
  amount fields are `StoredAmount` (a number — possibly NaN — or a value of
  some other type).
-/

/-- A JS number: NaN or a finite value (rationals model the floats). -/
inductive JSNum where
  | nan : JSNum
  | num (q : ℚ) : JSNum
deriving DecidableEq, Repr

/-- JS `+` on numbers: NaN is absorbing. -/
def jsAdd : JSNum → JSNum → JSNum
  | JSNum.num a, JSNum.num b => JSNum.num (a + b)
  | _, _ => JSNum.nan

/-- JS binary `-` on numbers: NaN is absorbing. -/
def jsSub : JSNum → JSNum → JSNum
  | JSNum.num a, JSNum.num b => JSNum.num (a - b)
  | _, _ => JSNum.nan

/-- JS unary `-` on numbers. -/
def jsNeg : JSNum → JSNum
  | JSNum.num a => JSNum.num (-a)
  | JSNum.nan => JSNum.nan

/-- JS `Math.abs`. -/
def jsAbs : JSNum → JSNum
  | JSNum.num a => JSNum.num |a|
  | JSNum.nan => JSNum.nan

/-- Embeds `isNaN(v) ? 0 : v` — the guard the summary endpoint applies to each
response field. -/
def toNumOrZero : JSNum → ℚ
  | JSNum.nan => 0
  | JSNum.num q => q

/-- Embeds `Number(v || 0)` for a value `v` that is already a number: the falsy
values NaN and 0 both collapse to 0. -/
def orZero : JSNum → ℚ
  | JSNum.nan => 0
  | JSNum.num q => q

instance : Zero JSNum := ⟨JSNum.num 0⟩

instance : Add JSNum := ⟨jsAdd⟩

theorem jsAdd_def (a b : JSNum) : a + b = jsAdd a b := rfl

theorem jsZero_def : (0 : JSNum) = JSNum.num 0 := rfl

instance : AddCommMonoid JSNum where
  add_assoc a b c := by
    cases a <;> cases b <;> cases c <;> simp [jsAdd_def, jsAdd, add_assoc]
  zero_add a := by cases a <;> simp [jsAdd_def, jsZero_def, jsAdd]
  add_zero a := by cases a <;> simp [jsAdd_def, jsZero_def, jsAdd]
  add_comm a b := by cases a <;> cases b <;> simp [jsAdd_def, jsAdd, add_comm]
  nsmul := nsmulRec

/-- A JS `Date` value: a valid instant (epoch milliseconds) or Invalid Date. -/
inductive JSDate where
  | valid (ms : Int) : JSDate
  | invalid : JSDate
deriving DecidableEq, Repr

/-- JS `d >= f` for a Date `d` against a valid bound (comparison with an
Invalid Date is a NaN comparison, hence false). -/
def jsGeMs : JSDate → Int → Bool
  | JSDate.valid ms, f => f ≤ ms
  | JSDate.invalid, _ => false

/-- JS `d <= t` for a Date `d` against a valid bound. -/
def jsLeMs : JSDate → Int → Bool
  | JSDate.valid ms, t => ms ≤ t
  | JSDate.invalid, _ => false

/-- The shapes a stored Firestore date field can take, as the code sniffs
them: falsy (null/undefined/empty), a string, a Timestamp wrapper (has both
a `toDate()` method and a numeric `seconds` field), a plain object with only
a numeric `seconds` field, a native `Date`, or anything else. -/
inductive RawDate where
  | null : RawDate
  | str (s : String) : RawDate
  | timestamp (seconds : Int) : RawDate
  | secondsObj (seconds : Int) : RawDate
  | date (d : JSDate) : RawDate
  | other : RawDate
deriving DecidableEq, Repr

/-- A stored amount field: a JS number (possibly NaN — Firestore stores
doubles) or a value of some non-number type. -/
inductive StoredAmount where
  | number (v : JSNum) : StoredAmount
  | notNumber : StoredAmount
deriving DecidableEq, Repr

/-! ## Civil calendar arithmetic

`civilOfDays` is the standard civil-from-days algorithm (era of 400 years =
146097 days), mapping a day count since 1970-01-01 to `(year, month, day)`
with month in 1..12; `daysFromCivil` is its inverse.  All inner divisions see
non-negative numerators after the era adjustment, so Euclidean division is
used throughout. -/

def civilOfDays (z : Int) : Int × Int × Int :=
  let z' := z + 719468
  let era := Int.ediv (if 0 ≤ z' then z' else z' - 146096) 146097
  let doe := z' - era * 146097
  let yoe := Int.ediv (doe - Int.ediv doe 1460 + Int.ediv doe 36524 - Int.ediv doe 146096) 365
  let y := yoe + era * 400
  let doy := doe - (365 * yoe + Int.ediv yoe 4 - Int.ediv yoe 100)
  let mp := Int.ediv (5 * doy + 2) 153
  let d := doy - Int.ediv (153 * mp + 2) 5 + 1
  let m := mp + (if mp < 10 then 3 else -9)
  (y + (if m ≤ 2 then 1 else 0), m, d)

def daysFromCivil (y m d : Int) : Int :=
  let y' := y - (if m ≤ 2 then 1 else 0)
  let era := Int.ediv (if 0 ≤ y' then y' else y' - 399) 400
  let yoe := y' - era * 400
  let doy := Int.ediv (153 * (m + (if 2 < m then -3 else 9)) + 2) 5 + d - 1
  let doe := yoe * 365 + Int.ediv yoe 4 - Int.ediv yoe 100 + doy
  era * 146097 + doe - 719468

/-- Epoch milliseconds to epoch days (floor division, as JS does). -/
def msToDays (ms : Int) : Int := Int.ediv ms 86400000

/-- Embeds `Date.prototype.getFullYear` (UTC-locale assumption). -/
def getFullYearJS (ms : Int) : Int := (civilOfDays (msToDays ms)).1

/-- Embeds `Date.prototype.getMonth` (0-indexed; the engine contract that the result
lies in 0..11 is reflected by the `% 12` range coercion). -/
def getMonthJS (ms : Int) : Nat := ((civilOfDays (msToDays ms)).2.1 - 1).toNat % 12

/-- Embeds `Date.prototype.getDate` (day of month). -/
def getDateJS (ms : Int) : Nat := ((civilOfDays (msToDays ms)).2.2).toNat

/-- Embeds `dt.getFullYear() === year && dt.getMonth() === month` — false for an
Invalid Date, whose fields are NaN. -/
def dateMatches (d : JSDate) (month year : Int) : Bool :=
  match d with
  | JSDate.valid ms => ((getMonthJS ms : Int) == month) && (getFullYearJS ms == year)
  | JSDate.invalid => false

/-! ## Character-level string primitives

The JS string methods the source calls (`split`, `trim`, `startsWith`,
`toLowerCase`, number parsing) are embedded as structural recursions over
character lists, so every concrete instance computes by kernel reduction. -/

/-- Embeds `s.split(sep)` (single-character separator). -/
def splitOnChar (sep : Char) : List Char → List (List Char)
  | [] => [[]]
  | c :: cs =>
      if c = sep then [] :: splitOnChar sep cs
      else
        match splitOnChar sep cs with
        | h :: t => (c :: h) :: t
        | [] => [[c]]

/-- Embeds `String.prototype.trim`. -/
def trimChars (cs : List Char) : List Char :=
  ((cs.dropWhile Char.isWhitespace).reverse.dropWhile Char.isWhitespace).reverse

def trimString (s : String) : String := String.mk (trimChars s.data)

/-- The value of a run of decimal digits. -/
def natOfDigits (cs : List Char) : Nat :=
  cs.foldl (fun a c => 10 * a + (c.toNat - 48)) 0

/-- A concrete executable fragment of the engine's `new Date(string)` parser:
strict `YYYY-MM-DD` (parsed as UTC midnight, as JS does for date-only ISO
forms); every other string yields Invalid Date.  Used to evaluate theorems at
concrete inputs; statements that depend on engine parsing quantify over the
parser instead. -/
def newDateModel (s : String) : JSDate :=
  match splitOnChar '-' s.data with
  | [y, m, d] =>
      if y.length = 4 && m.length = 2 && d.length = 2
          && (y ++ m ++ d).all Char.isDigit then
        let mn : Nat := natOfDigits m
        let dn : Nat := natOfDigits d
        if 1 ≤ mn && mn ≤ 12 && 1 ≤ dn && dn ≤ 31 then
          JSDate.valid (86400000 * daysFromCivil (natOfDigits y) mn dn)
        else JSDate.invalid
      else JSDate.invalid
  | _ => JSDate.invalid

/-! ## Month name tables (as in the source widgets) -/

def MONTHS_ORDER : List String :=
  ["Jan", "Feb", "Mar", "Apr", "May", "Jun",
   "Jul", "Aug", "Sep", "Oct", "Nov", "Dec"]

def MONTHS_LONG : List String :=
  ["January", "February", "March", "April", "May", "June",
   "July", "August", "September", "October", "November", "December"]

/-- Short month name of a 0-indexed month (`format(date, "MMM")`,
`toLocaleString(..., { month: "short" })`). -/
def monthAbbrev (i : Nat) : String := MONTHS_ORDER.getD i "Jan"

/-- Long month name of a 0-indexed month (`toLocaleString`/
`toLocaleDateString` with `month: "long"`). -/
def monthLong (i : Nat) : String := MONTHS_LONG.getD i "January"

/-! ## Date normalizers

Two distinct normalizers appear in the source: the widget-side `parseDate`
(char-identical copies in TotalBalanceCard, ExpenseChart, SpendingCategoryChart,
SavingsTrendChart and LatestTransactionsTable) and the server route's
`parseFirestoreDate` (`app/api/stats/summary/route.ts`).  IncomeChart's
`parseIncomeDate` differs only in using date-fns `parseISO` for strings. -/

/-- Widget-side `parseDate`: `!raw → null`; `instanceof Timestamp → toDate()`;
`typeof raw === "string" → new Date(raw)` (note: the Invalid Date produced by
a malformed string is returned, not null); `instanceof Date → raw`; otherwise
null.  `p` is the engine's string parser. -/
def parseDate (p : String → JSDate) : RawDate → Option JSDate
  | RawDate.null => none
  | RawDate.str s => if s = "" then none else some (p s)
  | RawDate.timestamp sec => some (JSDate.valid (1000 * sec))
  | RawDate.secondsObj _ => none
  | RawDate.date d => some d
  | RawDate.other => none

/-- IncomeChart's `parseIncomeDate`: same dispatch as `parseDate`, but strings
go through date-fns `parseISO` (passed here as `pIso`), which likewise returns
an Invalid Date for non-ISO text. -/
def parseIncomeDate (pIso : String → JSDate) : RawDate → Option JSDate
  | RawDate.null => none
  | RawDate.str s => if s = "" then none else some (pIso s)
  | RawDate.timestamp sec => some (JSDate.valid (1000 * sec))
  | RawDate.secondsObj _ => none
  | RawDate.date d => some d
  | RawDate.other => none

/-- The route's `parseFirestoreDate`: `!raw → null`; strings go through
`new Date(raw)` unconditionally; objects are sniffed for a `toDate` method
then a numeric `seconds` field; everything else — a native `Date` included,
since it has neither — yields null. -/
def parseFirestoreDate (p : String → JSDate) : RawDate → Option JSDate
  | RawDate.null => none
  | RawDate.str s => if s = "" then none else some (p s)
  | RawDate.timestamp sec => some (JSDate.valid (1000 * sec))
  | RawDate.secondsObj sec => some (JSDate.valid (1000 * sec))
  | RawDate.date _ => none
  | RawDate.other => none

/-! ## Summary endpoint (`GET /api/stats/summary`) -/

/-- A raw income/expense document as the route (and the dashboard widgets)
read it from the store. -/
structure FireDoc where
  amount : StoredAmount
  date : RawDate
  category : Option String := none
deriving DecidableEq, Repr

/-- The route's `SummaryResponse` (fields after the final isNaN guards, which
force each field to a plain number). -/
structure SummaryResponse where
  totalIncome : ℚ
  totalExpense : ℚ
  savings : ℚ
  categoryTotals : List (String × JSNum)
deriving DecidableEq, Repr

/-- The route's `isWithinRange`: parse the raw date, fail closed on `null`,
then check each bound only when it is set.  (An Invalid Date produced from a
malformed string is NOT null, so with both bounds unset it passes.) -/
def isWithinRange (p : String → JSDate) (fromD toD : Option Int) (raw : RawDate) : Bool :=
  match parseFirestoreDate p raw with
  | none => false
  | some d =>
      (match fromD with
       | none => true
       | some f => jsGeMs d f)
      &&
      (match toD with
       | none => true
       | some t => jsLeMs d t)

/-- Embeds `typeof data.amount === "number"` (NaN passes this check). -/
def isValidAmount : StoredAmount → Bool
  | StoredAmount.number _ => true
  | StoredAmount.notNumber => false

/-- The numeric value of an amount that passed `isValidAmount`. -/
def amountNum : StoredAmount → JSNum
  | StoredAmount.number v => v
  | StoredAmount.notNumber => JSNum.nan

/-- Embeds `categoryTotals[category] = (categoryTotals[category] || 0) + amount`
over a JS object: update in place when the key exists, append otherwise
(insertion order preserved). -/
def bumpAssoc (m : List (String × JSNum)) (k : String) (a : JSNum) : List (String × JSNum) :=
  match m with
  | [] => [(k, a)]
  | (k', v) :: rest =>
      if k' = k then (k', jsAdd v a) :: rest else (k', v) :: bumpAssoc rest k a

/-- One step of the route's income loop. -/
def incomeStep (p : String → JSDate) (fromD toD : Option Int) (acc : JSNum) (d : FireDoc) : JSNum :=
  if isValidAmount d.amount && isWithinRange p fromD toD d.date then
    jsAdd acc (amountNum d.amount)
  else acc

/-- One step of the route's expense loop: accumulates both the total and the
per-category map (`typeof data.category === "string" ? data.category : "Other"`). -/
def expenseStep (p : String → JSDate) (fromD toD : Option Int)
    (st : JSNum × List (String × JSNum)) (d : FireDoc) : JSNum × List (String × JSNum) :=
  if isValidAmount d.amount && isWithinRange p fromD toD d.date then
    (jsAdd st.1 (amountNum d.amount),
     bumpAssoc st.2 (d.category.getD "Other") (amountNum d.amount))
  else st

/-- The route's `GET` handler body: `totalIncome` starts at the hard-coded
`testIncomeAmount = 5000`, `totalExpense` at `testExpenseAmount = 2000`, and
`categoryTotals` at `{"Test Category": 2000}`; each loop then adds documents
whose amount is number-typed and whose date passes `isWithinRange`; finally
each numeric field is forced to 0 if NaN, with `savings` computed from the
raw totals BEFORE its own NaN guard. -/
def summaryGET (p : String → JSDate) (incomes expenses : List FireDoc)
    (fromD toD : Option Int) : SummaryResponse :=
  let totalIncome := incomes.foldl (incomeStep p fromD toD) (JSNum.num 5000)
  let st := expenses.foldl (expenseStep p fromD toD)
    (JSNum.num 2000, [("Test Category", JSNum.num 2000)])
  { totalIncome := toNumOrZero totalIncome
    totalExpense := toNumOrZero st.1
    savings := toNumOrZero (jsSub totalIncome st.1)
    categoryTotals := st.2 }

/-! ## Keyed accumulation (the `totals[key] = (totals[key] || 0) + amount`
pattern shared by the month/category grouping loops) -/

/-- One object update `f[k] = (f[k] || 0) + a`, on the total-function view of
a JS object whose reads default to 0. -/
def bumpFn {κ M : Type} [DecidableEq κ] [Add M] (f : κ → M) (k : κ) (a : M) : κ → M :=
  fun m => if m = k then f k + a else f m

/-- The grouping loop: each record either yields a `(bucket key, amount)`
pair and bumps that bucket, or is skipped. -/
def keyedTotals {α κ M : Type} [DecidableEq κ] [Add M]
    (key : α → Option (κ × M)) : List α → (κ → M) → (κ → M)
  | [], f => f
  | r :: rs, f =>
      match key r with
      | some (k, a) => keyedTotals key rs (bumpFn f k a)
      | none => keyedTotals key rs f

/-! ## IncomeChart (`buildMonthlyIncomeData`) -/

/-- A record as IncomeChart's fetch maps it (`amount` is already a number). -/
structure IncomeRecord where
  amount : JSNum
  date : RawDate
deriving DecidableEq, Repr

structure MonthlyIncome where
  name : String
  income : ℚ
deriving DecidableEq, Repr

/-- Admission and bucketing of one income record: the date must parse to a
valid Date (`if (!date || !isValid(date)) continue`), the bucket key is
`format(date, "MMM")`, and the amount is `Number(income.amount || 0)`. -/
def incomeMonthKey (pIso : String → JSDate) (r : IncomeRecord) : Option (String × ℚ) :=
  match parseIncomeDate pIso r.date with
  | some (JSDate.valid ms) => some (monthAbbrev (getMonthJS ms), orZero r.amount)
  | _ => none

/-- Embeds `buildMonthlyIncomeData`: group admitted incomes by short month name,
then emit one row per calendar month (zero-filled). -/
def buildMonthlyIncomeData (pIso : String → JSDate) (incomes : List IncomeRecord) :
    List MonthlyIncome :=
  let monthly := keyedTotals (incomeMonthKey pIso) incomes (fun _ => 0)
  MONTHS_ORDER.map (fun m => { name := m, income := monthly m })

/-! ## ExpenseChart (`buildMonthlyExpenseData`) -/

structure ExpenseData where
  amount : JSNum
  date : RawDate
deriving DecidableEq, Repr

structure MonthlyExpense where
  name : String
  expense : ℚ
deriving DecidableEq, Repr

/-- Embeds `dayjs(date).format("MMM")`: the whole format collapses to the string
`"Invalid Date"` when the date is invalid. -/
def dayjsFormatMMM : JSDate → String
  | JSDate.valid ms => monthAbbrev (getMonthJS ms)
  | JSDate.invalid => "Invalid Date"

/-- Admission and bucketing of one expense record in ExpenseChart: only
`if (!date) return` guards the parse — an Invalid Date is NOT filtered out
and lands in the `"Invalid Date"` bucket, which the 12-month projection then
drops. -/
def expenseMonthKey (p : String → JSDate) (e : ExpenseData) : Option (String × ℚ) :=
  match parseDate p e.date with
  | none => none
  | some d => some (dayjsFormatMMM d, orZero e.amount)

/-- Embeds `buildMonthlyExpenseData`. -/
def buildMonthlyExpenseData (p : String → JSDate) (expenses : List ExpenseData) :
    List MonthlyExpense :=
  let totals := keyedTotals (expenseMonthKey p) expenses (fun _ => 0)
  MONTHS_ORDER.map (fun m => { name := m, expense := totals m })

/-! ## SavingsTrendChart (`fetchSavingsData`) -/

structure SavingsDataPoint where
  month : String
  income : JSNum
  expense : JSNum
  savings : JSNum
deriving DecidableEq, Repr

/-- Admission of one document in SavingsTrendChart: valid parsed date whose
year matches, number-typed amount; bucket is `parsed.getMonth()`. -/
def savingsKey (p : String → JSDate) (year : Int) (d : FireDoc) : Option (Nat × JSNum) :=
  match parseDate p d.date, d.amount with
  | some (JSDate.valid ms), StoredAmount.number v =>
      if getFullYearJS ms = year then some (getMonthJS ms, v) else none
  | _, _ => none

/-- Embeds `fetchSavingsData`: twelve month slots, `income`/`expense` accumulated by
month index, `savings = income - expense` per slot. -/
def fetchSavingsData (p : String → JSDate) (year : Int)
    (incomeDocs expenseDocs : List FireDoc) : List SavingsDataPoint :=
  let inc := keyedTotals (savingsKey p year) incomeDocs (fun _ => 0)
  let exp := keyedTotals (savingsKey p year) expenseDocs (fun _ => 0)
  (List.range 12).map (fun i =>
    { month := monthAbbrev i, income := inc i, expense := exp i,
      savings := jsSub (inc i) (exp i) })

/-! ## SpendingCategoryChart (`fetchCategoryData`) -/

structure CategoryDataPoint where
  name : String
  value : JSNum
deriving DecidableEq, Repr

/-- Admission of one expense document in SpendingCategoryChart: valid parsed
date matching (month, year), number-typed amount; the bucket key is
`category || "Uncategorized"`. -/
def categoryKey (p : String → JSDate) (month year : Int) (d : FireDoc) :
    Option (String × JSNum) :=
  match parseDate p d.date, d.amount with
  | some dd, StoredAmount.number v =>
      if dateMatches dd month year then
        some (d.category.getD "Uncategorized", v)
      else none
  | _, _ => none

/-- The category accumulation loop over the `categoryMap` object. -/
def categoryFold (p : String → JSDate) (month year : Int) :
    List FireDoc → List (String × JSNum) → List (String × JSNum)
  | [], acc => acc
  | d :: ds, acc =>
      match categoryKey p month year d with
      | some (k, v) => categoryFold p month year ds (bumpAssoc acc k v)
      | none => categoryFold p month year ds acc

/-- The `.sort((a, b) => b.value - a.value)` comparator ordering (descending
by value; a NaN comparator result is treated as equal, i.e. as value 0). -/
def byValueDesc (a b : CategoryDataPoint) : Prop :=
  toNumOrZero b.value ≤ toNumOrZero a.value

instance : DecidableRel byValueDesc := fun a b =>
  inferInstanceAs (Decidable (toNumOrZero b.value ≤ toNumOrZero a.value))

instance : IsTotal CategoryDataPoint byValueDesc :=
  ⟨fun a b => le_total (toNumOrZero b.value) (toNumOrZero a.value)⟩

instance : IsTrans CategoryDataPoint byValueDesc :=
  ⟨fun _ _ _ h h' => le_trans h' h⟩

/-- Embeds `fetchCategoryData`: accumulate admitted expenses per category, then
`Object.entries(...).map(...).sort(desc by value)`. -/
def fetchCategoryData (p : String → JSDate) (month year : Int)
    (docs : List FireDoc) : List CategoryDataPoint :=
  List.insertionSort byValueDesc
    ((categoryFold p month year docs []).map (fun kv => { name := kv.1, value := kv.2 }))

/-! ## TotalBalanceCard (`fetchData`) -/

structure BalancePoint where
  month : String
  balance : JSNum
deriving DecidableEq, Repr

/-- What TotalBalanceCard's fetch computes (the percent-change display state
is presentation and omitted). -/
structure TBResult where
  data : List BalancePoint
  currentIncome : JSNum
  currentExpense : JSNum
  currentBalance : JSNum
deriving DecidableEq, Repr

/-- Admission of one document for a target (month, year): valid parsed date
matching both fields, number-typed amount. -/
def tbAdmitted (p : String → JSDate) (tm ty : Int) (d : FireDoc) : Option JSNum :=
  match parseDate p d.date, d.amount with
  | some dd, StoredAmount.number v => if dateMatches dd tm ty then some v else none
  | _, _ => none

/-- One month's accumulated total over a document list. -/
def monthTotalOf (p : String → JSDate) (tm ty : Int) (docs : List FireDoc) : JSNum :=
  (docs.filterMap (tbAdmitted p tm ty)).sum

/-- The loop offsets `i = 5 .. 0`. -/
def tbOffsets : List Int := [5, 4, 3, 2, 1, 0]

/-- One iteration's data: `new Date(year, month - i, 1)` normalizes the month
exactly as Euclidean div/mod do. -/
structure TBMonth where
  tm : Int
  ty : Int
  inc : JSNum
  exp : JSNum

def tbMonthOf (p : String → JSDate) (month year : Int)
    (incomeDocs expenseDocs : List FireDoc) (i : Int) : TBMonth :=
  let t := month - i
  let tm := Int.emod t 12
  let ty := year + Int.ediv t 12
  { tm := tm, ty := ty,
    inc := monthTotalOf p tm ty incomeDocs,
    exp := monthTotalOf p tm ty expenseDocs }

/-- Embeds `fetchData` of TotalBalanceCard: six months of balances ending at the
selected (month, year); `thisMonthIncome`/`thisMonthExpense` keep the totals
of the iteration whose target equals the selection (initially 0). -/
def fetchDataTB (p : String → JSDate) (month year : Int)
    (incomeDocs expenseDocs : List FireDoc) : TBResult :=
  let ms := tbOffsets.map (tbMonthOf p month year incomeDocs expenseDocs)
  let balances := ms.map (fun q => { month := monthAbbrev q.tm.toNat,
                                     balance := jsSub q.inc q.exp : BalancePoint })
  let cur := ms.foldl
    (fun st q => if q.tm == month && q.ty == year then (q.inc, q.exp) else st)
    (JSNum.num 0, JSNum.num 0)
  { data := balances, currentIncome := cur.1, currentExpense := cur.2,
    currentBalance := jsSub cur.1 cur.2 }

/-! ## LatestTransactionsTable (`fetchTransactions`, `handleDownloadStatement`) -/

/-- A raw document as this widget reads it. -/
structure TxnDoc where
  id : String
  title : Option String := none
  source : Option String := none
  category : Option String := none
  amount : StoredAmount
  date : RawDate
deriving DecidableEq, Repr

/-- An admitted transaction; `ms` is the parsed date's instant (admission
guarantees a valid date) and `ttype` the `type` field. -/
structure Transaction where
  id : String
  title : String
  amount : JSNum
  ttype : String
  ms : Int
deriving DecidableEq, Repr

/-- Admission of one income document: valid parsed date matching the selected
(month, year) and a number-typed amount; `title: d.title || d.source ||
"Income"`, positive amount, `type: "Income"`. -/
def incomeTxnOf (p : String → JSDate) (month year : Int) (d : TxnDoc) : Option Transaction :=
  match parseDate p d.date, d.amount with
  | some dd, StoredAmount.number v =>
      match dd with
      | JSDate.valid ms =>
          if dateMatches dd month year then
            some { id := d.id, title := d.title.getD (d.source.getD "Income"),
                   amount := v, ttype := "Income", ms := ms }
          else none
      | JSDate.invalid => none
  | _, _ => none

/-- Admission of one expense document: as for incomes, but the amount is
negated (`amount: -d.amount`) and `type: d.category || "Expense"`. -/
def expenseTxnOf (p : String → JSDate) (month year : Int) (d : TxnDoc) : Option Transaction :=
  match parseDate p d.date, d.amount with
  | some dd, StoredAmount.number v =>
      match dd with
      | JSDate.valid ms =>
          if dateMatches dd month year then
            some { id := d.id, title := d.title.getD (d.category.getD "Expense"),
                   amount := jsNeg v, ttype := d.category.getD "Expense", ms := ms }
          else none
      | JSDate.invalid => none
  | _, _ => none

/-- Embeds `(a, b) => b.date.getTime() - a.date.getTime()`: descending by instant. -/
def newerFirst (a b : Transaction) : Prop := b.ms ≤ a.ms

instance : DecidableRel newerFirst := fun a b =>
  inferInstanceAs (Decidable (b.ms ≤ a.ms))

instance : IsTotal Transaction newerFirst := ⟨fun a b => le_total b.ms a.ms⟩

instance : IsTrans Transaction newerFirst := ⟨fun _ _ _ h h' => le_trans h' h⟩

/-- The admitted transactions in collection order (incomes then expenses),
before sorting. -/
def admittedTxns (p : String → JSDate) (month year : Int)
    (incomeDocs expenseDocs : List TxnDoc) : List Transaction :=
  incomeDocs.filterMap (incomeTxnOf p month year)
    ++ expenseDocs.filterMap (expenseTxnOf p month year)

/-- Embeds `allMonthlyTransactions`: the admitted set sorted newest first. -/
def allMonthlyTransactions (p : String → JSDate) (month year : Int)
    (incomeDocs expenseDocs : List TxnDoc) : List Transaction :=
  List.insertionSort newerFirst (admittedTxns p month year incomeDocs expenseDocs)

/-- Embeds `transactionsToDisplay`: the first 50 of the sorted list. -/
def transactionsToDisplay (p : String → JSDate) (month year : Int)
    (incomeDocs expenseDocs : List TxnDoc) : List Transaction :=
  (allMonthlyTransactions p month year incomeDocs expenseDocs).take 50

/-! ## Decimal and date rendering (for the CSV export) -/

/-- Decimal digits of a natural number (structural fuel recursion; the fuel
`n + 1` always suffices). -/
def renderNatFuel : Nat → Nat → List Char
  | 0, _ => []
  | fuel + 1, n =>
      if n < 10 then [Nat.digitChar n]
      else renderNatFuel fuel (n / 10) ++ [Nat.digitChar (n % 10)]

def renderNat (n : Nat) : List Char := renderNatFuel (n + 1) n

def renderInt (i : Int) : List Char :=
  if i < 0 then '-' :: renderNat (-i).toNat else renderNat i.toNat

/-- The last two decimal digits, zero-padded. -/
def twoDigits (k : Nat) : List Char :=
  [Nat.digitChar (k / 10 % 10), Nat.digitChar (k % 10)]

/-- Embeds `⌊100q + 1/2⌋` computed on the reduced fraction:
`⌊(200·num + den) / (2·den)⌋` (the denominator is positive, so Euclidean
division is the floor). -/
def round2Scaled (q : ℚ) : Int := Int.ediv (200 * q.num + (q.den : Int)) (2 * (q.den : Int))

/-- Embeds `toFixed(2)` on a non-negative rational (round half up; JS resolves exact
ties by the underlying float, which no claim exercises). -/
def fixed2Pos (q : ℚ) : List Char :=
  let c : Nat := (round2Scaled q).toNat
  renderNat (c / 100) ++ '.' :: twoDigits (c % 100)

def fixed2 (q : ℚ) : String :=
  if q < 0 then String.mk ('-' :: fixed2Pos (-q)) else String.mk (fixed2Pos q)

/-- Embeds `Number.prototype.toFixed(2)`. -/
def toFixed2 : JSNum → String
  | JSNum.nan => "NaN"
  | JSNum.num q => fixed2 q

/-- Embeds `toLocaleDateString("en-US", { year: "numeric", month: "long",
day: "numeric" })`, e.g. `January 15, 2024` — note the embedded comma. -/
def toLocaleDateStringUS (ms : Int) : String :=
  String.mk ((monthLong (getMonthJS ms)).data
    ++ ' ' :: renderNat (getDateJS ms)
    ++ ',' :: ' ' :: renderInt (getFullYearJS ms))

/-! ## CSV assembly (`handleDownloadStatement`) -/

/-- The double-quote character (written via its code point to keep it out of
the surface syntax). -/
def dquote : Char := Char.ofNat 34

/-- Embeds `.replace(/"/g, '""')`. -/
def escQuotes : List Char → List Char
  | [] => []
  | c :: cs =>
      if c = dquote then dquote :: dquote :: escQuotes cs else c :: escQuotes cs

/-- A quoted CSV field: `"${s.replace(/"/g, '""')}"`. -/
def quoteField (s : String) : List Char := dquote :: (escQuotes s.data ++ [dquote])

/-- One CSV row: `${date},${title},${type},${amount}` — the date and amount
fields are NOT quoted. -/
def csvRowChars (t : Transaction) : List Char :=
  (toLocaleDateStringUS t.ms).data
    ++ ',' :: (quoteField t.title
    ++ ',' :: (quoteField t.ttype
    ++ ',' :: (toFixed2 t.amount).data))

def csvRow (t : Transaction) : String := String.mk (csvRowChars t)

/-- Embeds `rows.join("\n")`. -/
def joinWithNewline : List String → String
  | [] => ""
  | [s] => s
  | s :: rest => s ++ "\n" ++ joinWithNewline rest

/-- Embeds `handleDownloadStatement`: bails out on an empty list, otherwise emits
the header line and one row per transaction of the FULL monthly list. -/
def handleDownloadStatement (txns : List Transaction) : Option String :=
  if txns.length = 0 then none
  else some ("Date,Title,Type,Amount\n" ++ joinWithNewline (txns.map csvRow))

/-- Commas of a character list that are outside double quotes (the standard
CSV separator scan; doubled quotes inside a quoted field toggle the state
twice and hide nothing). -/
def csvCommas : List Char → Bool → Nat
  | [], _ => 0
  | c :: cs, inQ =>
      if c = dquote then csvCommas cs (!inQ)
      else if c = ',' then (if inQ then csvCommas cs inQ else csvCommas cs inQ + 1)
      else csvCommas cs inQ

/-- How many columns a CSV line splits into. -/
def csvFieldCount (s : String) : Nat := csvCommas s.data false + 1

/-! ## Manual entry forms (AddIncomeForm / AddExpenseForm) -/

def isDigitOpt : Option Char → Bool
  | some c => c.isDigit
  | none => false

/-- Embeds `raw.replace(/(?<=\d),(?=\d)/g, "")`: drop each comma whose original
neighbours are both digits. -/
def stripSeps : Option Char → List Char → List Char
  | _, [] => []
  | prev, c :: rest =>
      if c == ',' && isDigitOpt prev && isDigitOpt rest.head? then
        stripSeps (some c) rest
      else c :: stripSeps (some c) rest

/-- Embeds `normalizeAmount` (identical helper in both forms). -/
def normalizeAmount (raw : String) : String :=
  String.mk (trimChars (stripSeps none raw.data))

/-- The decimal fragment `digits[.digits]` of `parseFloat` (no exponent —
the engine primitive's fragment the forms exercise); the value
`ip.fp = (ip·10^k + fp) / 10^k`. -/
def parseDecFrag (cs : List Char) : JSNum :=
  let ip := cs.takeWhile Char.isDigit
  let rest := cs.dropWhile Char.isDigit
  let fp := match rest with
    | '.' :: r => r.takeWhile Char.isDigit
    | _ => []
  if ip.isEmpty && fp.isEmpty then JSNum.nan
  else JSNum.num (mkRat (natOfDigits ip * 10 ^ fp.length + natOfDigits fp) (10 ^ fp.length))

/-- Executable model of the engine's `parseFloat`. -/
def parseFloatModel (s : String) : JSNum :=
  match s.data.dropWhile Char.isWhitespace with
  | '-' :: rest => jsNeg (parseDecFrag rest)
  | '+' :: rest => parseDecFrag rest
  | cs => parseDecFrag cs

structure IncomeFormState where
  amount : String
  source : String
  customSource : String := ""
  date : Option JSDate
  user : Option String
deriving Repr

/-- The document `AddIncomeForm.handleSubmit` writes. -/
structure IncomeDoc where
  amount : ℚ
  source : String
  date : JSDate
  userId : String
deriving DecidableEq, Repr

/-- Embeds `AddIncomeForm.handleSubmit`: required fields, then
`isNaN(parsedAmount) || parsedAmount <= 0` rejection, then the login check;
`none` means no store write happened. -/
def handleSubmitIncome (st : IncomeFormState) : Option IncomeDoc :=
  let finalSource := if st.source = "Other" then trimString st.customSource else st.source
  if st.amount = "" ∨ finalSource = "" ∨ st.date = none then none
  else
    match parseFloatModel (normalizeAmount st.amount) with
    | JSNum.nan => none
    | JSNum.num q =>
        if q ≤ 0 then none
        else
          match st.user, st.date with
          | some uid, some d =>
              some { amount := q, source := finalSource, date := d, userId := uid }
          | _, _ => none

structure ExpenseFormState where
  amount : String
  category : String
  customCategory : String := ""
  date : Option JSDate
  user : Option String
deriving Repr

structure ExpenseFormDoc where
  amount : ℚ
  category : String
  date : JSDate
  userId : String
deriving DecidableEq, Repr

/-- Embeds `AddExpenseForm.handleSubmit` (same shape; `Other`/`Misc` switch to the
custom category, which must then be non-empty). -/
def handleSubmitExpense (st : ExpenseFormState) : Option ExpenseFormDoc :=
  let showCustom := st.category = "Other" ∨ st.category = "Misc"
  let finalCategory := if showCustom then trimString st.customCategory else st.category
  if st.amount = "" ∨ finalCategory = "" ∨ st.date = none then none
  else
    match parseFloatModel (normalizeAmount st.amount) with
    | JSNum.nan => none
    | JSNum.num q =>
        if q ≤ 0 then none
        else if showCustom ∧ trimString st.customCategory = "" then none
        else
          match st.user, st.date with
          | some uid, some d =>
              some { amount := q, category := finalCategory, date := d, userId := uid }
          | _, _ => none

/-! ## Statement upload save flow (`upload-transactions/page.tsx`) -/

inductive TxnKind where
  | income : TxnKind
  | expense : TxnKind
deriving DecidableEq, Repr

/-- One row of the bulk-extraction response. -/
structure ExtractedTransaction where
  date : String
  description : String
  amount : ℚ
  classifiedAs : TxnKind
deriving DecidableEq, Repr

/-- The document `handleSaveToFirebase` writes for one row. -/
structure SavedDoc where
  amount : ℚ
  category : String
  date : JSDate
  userId : String
deriving DecidableEq, Repr

def strIncludes (hay needle : String) : Bool := decide (needle.data <:+: hay.data)

/-- Embeds `guessExpenseCategory`. -/
def guessExpenseCategory (desc : String) : String :=
  let lower := String.mk (desc.data.map Char.toLower)
  if strIncludes lower "zomato" || strIncludes lower "swiggy" then "Food"
  else if strIncludes lower "amazon" || strIncludes lower "flipkart" then "Shopping"
  else if strIncludes lower "atm" || strIncludes lower "withdrawal" then "Cash"
  else if strIncludes lower "rent" then "Housing"
  else if strIncludes lower "electricity" || strIncludes lower "bill" then "Utilities"
  else "Misc"

/-- Embeds `isValidDate`: `new Date(input)` and an isNaN check. -/
def isValidDateStr (p : String → JSDate) (s : String) : Bool :=
  p s != JSDate.invalid

/-- The write `handleSaveToFirebase` performs for one extracted transaction:
collection name and document.  NOTE: the amount is `Math.abs(tx.amount)` with
no positivity check — an extracted amount of 0 is persisted as 0. -/
def saveDocOf (p : String → JSDate) (now : JSDate) (uid : String)
    (tx : ExtractedTransaction) : String × SavedDoc :=
  (match tx.classifiedAs with
   | TxnKind.income => "incomes"
   | TxnKind.expense => "expenses",
   { amount := |tx.amount|,
     category := match tx.classifiedAs with
       | TxnKind.income => "Salary"
       | TxnKind.expense => guessExpenseCategory tx.description,
     date := if isValidDateStr p tx.date then p tx.date else now,
     userId := uid })

/-- Embeds `handleSaveToFirebase`: one independent create per extracted row (the
early return on no user / empty list writes nothing, which the map on the
empty list already models). -/
def handleSaveToFirebase (p : String → JSDate) (now : JSDate) (uid : String)
    (txs : List ExtractedTransaction) : List (String × SavedDoc) :=
  txs.map (saveDocOf p now uid)

/-! ## InsightSummaryCard (bullet parsing of the insight response) -/

/-- Embeds `line.replace(/^\*\s*/, "")`: anchored at the RAW start of the line — a
line with leading whitespace before `*` is left unchanged. -/
def stripLeadingStarChars : List Char → List Char
  | '*' :: rest => rest.dropWhile Char.isWhitespace
  | cs => cs

/-- Embeds `line.trim().startsWith("*")`. -/
def trimStartsWithStar (line : List Char) : Bool :=
  match trimChars line with
  | '*' :: _ => true
  | _ => false

/-- The bullet extraction in `fetchInsight`: trim the content, split on
newlines, keep lines whose trimmed form starts with `*`, apply the anchored
marker strip plus a trim, cap at 3. -/
def fetchInsightBullets (content : String) : List String :=
  let c := trimChars content.data
  ((((splitOnChar '\n' c).filter trimStartsWithStar).map
    (fun line => String.mk (trimChars (stripLeadingStarChars line)))).take 3)

/-! ## Lemmas: bucket sums -/

theorem bumpFn_self {κ M : Type} [DecidableEq κ] [Add M]
    (f : κ → M) (k : κ) (a : M) : bumpFn f k a k = f k + a := by
  simp [bumpFn]

theorem bumpFn_ne {κ M : Type} [DecidableEq κ] [Add M]
    (f : κ → M) (k : κ) (a : M) {m : κ} (h : m ≠ k) : bumpFn f k a m = f m := by
  simp [bumpFn, h]

theorem sum_map_bumpFn {κ M : Type} [DecidableEq κ] [AddCommMonoid M]
    (l : List κ) (f : κ → M) (k : κ) (a : M) (hnd : l.Nodup) (hk : k ∈ l) :
    (l.map (bumpFn f k a)).sum = (l.map f).sum + a := by
  induction l with
  | nil => cases hk
  | cons x xs ih =>
      rcases List.nodup_cons.mp hnd with ⟨hx, hxs⟩
      rcases List.mem_cons.mp hk with h | h
      · subst h
        have hrest : xs.map (bumpFn f k a) = xs.map f := by
          apply List.map_congr_left
          intro m hm
          exact bumpFn_ne f k a (fun e => hx (e ▸ hm))
        simp only [List.map_cons, List.sum_cons, hrest, bumpFn_self]
        rw [add_right_comm]
      · have hxk : x ≠ k := by
          rintro rfl
          exact hx h
        simp only [List.map_cons, List.sum_cons, bumpFn_ne f k a hxk, ih hxs h]
        rw [add_assoc]

theorem keyedTotals_sum {α κ M : Type} [DecidableEq κ] [AddCommMonoid M]
    (key : α → Option (κ × M)) (dom : List κ) (hnd : dom.Nodup)
    (hdom : ∀ r k a, key r = some (k, a) → k ∈ dom) :
    ∀ (l : List α) (f : κ → M),
      (dom.map (keyedTotals key l f)).sum
        = (dom.map f).sum + (l.filterMap (fun r => (key r).map Prod.snd)).sum := by
  intro l
  induction l with
  | nil => intro f; simp [keyedTotals]
  | cons r rs ih =>
      intro f
      cases hkey : key r with
      | none => simp [keyedTotals, hkey, ih]
      | some pr =>
          obtain ⟨k, a⟩ := pr
          have hk := hdom r k a hkey
          simp only [keyedTotals, hkey, List.filterMap_cons, Option.map_some',
            List.sum_cons]
          rw [ih (bumpFn f k a), sum_map_bumpFn dom f k a hnd hk, add_assoc]

/-- Bumping one bucket leaves every other bucket's final total unchanged. -/
theorem keyedTotals_congr_off {α κ M : Type} [DecidableEq κ] [Add M]
    (key : α → Option (κ × M)) (k₀ : κ) :
    ∀ (l : List α) (f g : κ → M), (∀ m, m ≠ k₀ → f m = g m) →
      ∀ m, m ≠ k₀ → keyedTotals key l f m = keyedTotals key l g m := by
  intro l
  induction l with
  | nil => intro f g h m hm; exact h m hm
  | cons r rs ih =>
      intro f g h m hm
      cases hkey : key r with
      | none => simp only [keyedTotals, hkey]; exact ih f g h m hm
      | some pr =>
          obtain ⟨k, a⟩ := pr
          simp only [keyedTotals, hkey]
          refine ih _ _ (fun m' hm' => ?_) m hm
          by_cases hk : m' = k
          · subst hk
            by_cases hkk : m' = k₀
            · exact absurd hkk hm'
            · simp [bumpFn, h m' hm']
          · simp [bumpFn, hk, h m' hm']

theorem getMonthJS_lt (ms : Int) : getMonthJS ms < 12 :=
  Nat.mod_lt _ (by norm_num)

theorem monthAbbrev_mem_of_lt : ∀ i, i < 12 → monthAbbrev i ∈ MONTHS_ORDER := by
  decide

theorem months_order_nodup : MONTHS_ORDER.Nodup := by decide

/-- C4: for every record set, the sum of the twelve per-month bucket totals
equals the sum of the admitted amounts — for IncomeChart's
`buildMonthlyIncomeData` (admitted: date parses to a valid instant; amount
`Number(amount || 0)`), and for both accumulations of SavingsTrendChart's
`fetchSavingsData` (admitted: valid date in the requested year,
number-typed amount).  Month bucketing loses and double-counts nothing. -/
theorem monthly_bucketing_total (pIso p : String → JSDate)
    (incomes : List IncomeRecord) (year : Int)
    (incomeDocs expenseDocs : List FireDoc) :
    ((buildMonthlyIncomeData pIso incomes).map MonthlyIncome.income).sum
        = (incomes.filterMap (fun r => (incomeMonthKey pIso r).map Prod.snd)).sum
    ∧ ((fetchSavingsData p year incomeDocs expenseDocs).map SavingsDataPoint.income).sum
        = (incomeDocs.filterMap (fun d => (savingsKey p year d).map Prod.snd)).sum
    ∧ ((fetchSavingsData p year incomeDocs expenseDocs).map SavingsDataPoint.expense).sum
        = (expenseDocs.filterMap (fun d => (savingsKey p year d).map Prod.snd)).sum := by
  have hdomInc : ∀ r k a, incomeMonthKey pIso r = some (k, a) → k ∈ MONTHS_ORDER := by
    intro r k a h
    unfold incomeMonthKey at h
    split at h
    · rcases h with ⟨⟩
      exact monthAbbrev_mem_of_lt _ (getMonthJS_lt _)
    · cases h
  have hdomSav : ∀ d k a, savingsKey p year d = some (k, a) → k ∈ List.range 12 := by
    intro d k a h
    unfold savingsKey at h
    split at h
    · split at h
      · rcases h with ⟨⟩
        exact List.mem_range.mpr (getMonthJS_lt _)
      · cases h
    · cases h
  refine ⟨?_, ?_, ?_⟩
  · have := keyedTotals_sum (incomeMonthKey pIso) MONTHS_ORDER months_order_nodup
      hdomInc incomes (fun _ => 0)
    simpa [buildMonthlyIncomeData, List.map_map, Function.comp,
      List.sum_eq_zero] using this
  · have := keyedTotals_sum (savingsKey p year) (List.range 12) (List.nodup_range 12)
      hdomSav incomeDocs (fun _ => 0)
    simpa [fetchSavingsData, List.map_map, Function.comp,
      List.sum_eq_zero] using this
  · have := keyedTotals_sum (savingsKey p year) (List.range 12) (List.nodup_range 12)
      hdomSav expenseDocs (fun _ => 0)
    simpa [fetchSavingsData, List.map_map, Function.comp,
      List.sum_eq_zero] using this

/-! ## Lemmas: category keys -/

theorem bumpAssoc_keys :
    ∀ (m : List (String × JSNum)) (k : String) (a : JSNum) (x : String),
      x ∈ (bumpAssoc m k a).map Prod.fst → x = k ∨ x ∈ m.map Prod.fst := by
  intro m k a
  induction m with
  | nil =>
      intro x h
      simp [bumpAssoc] at h
      exact Or.inl h
  | cons kv rest ih =>
      intro x h
      obtain ⟨k', v⟩ := kv
      by_cases hk : k' = k
      · subst hk
        simp only [bumpAssoc, if_true, eq_self_iff_true, List.map_cons,
          List.mem_cons] at h
        simp only [List.map_cons, List.mem_cons]
        tauto
      · simp only [bumpAssoc, if_neg hk, List.map_cons, List.mem_cons] at h
        simp only [List.map_cons, List.mem_cons]
        rcases h with h | h
        · exact Or.inr (Or.inl h)
        · rcases ih x h with h' | h'
          · exact Or.inl h'
          · exact Or.inr (Or.inr h')

theorem categoryFold_keys (p : String → JSDate) (month year : Int) :
    ∀ (docs : List FireDoc) (acc : List (String × JSNum)) (x : String),
      x ∈ (categoryFold p month year docs acc).map Prod.fst →
        x ∈ acc.map Prod.fst ∨ ∃ d ∈ docs, ∃ v, categoryKey p month year d = some (x, v) := by
  intro docs
  induction docs with
  | nil =>
      intro acc x h
      simp only [categoryFold] at h
      exact Or.inl h
  | cons d ds ih =>
      intro acc x h
      cases hkey : categoryKey p month year d with
      | none =>
          simp only [categoryFold, hkey] at h
          rcases ih _ x h with h' | ⟨d', hd', v, hv⟩
          · exact Or.inl h'
          · exact Or.inr ⟨d', List.mem_cons_of_mem _ hd', v, hv⟩
      | some kv =>
          obtain ⟨k, v⟩ := kv
          simp only [categoryFold, hkey] at h
          rcases ih _ x h with h' | ⟨d', hd', v', hv'⟩
          · rcases bumpAssoc_keys _ _ _ _ h' with h'' | h''
            · subst h''
              exact Or.inr ⟨d, List.mem_cons_self _ _, v, hkey⟩
            · exact Or.inl h''
          · exact Or.inr ⟨d', List.mem_cons_of_mem _ hd', v', hv'⟩

/-- C3: month-bucketed time-series output always carries exactly the twelve
calendar months (zero-filled), while a dynamic category bucket appears only
for an observed admitted record — EXCEPT in the summary endpoint, whose
`categoryTotals` carries the hard-coded `"Test Category"` entry even over an
empty store (the debug residue). -/
theorem fixed_month_domain_and_dynamic_categories
    (pIso p pr : String → JSDate) (incomes : List IncomeRecord)
    (expenses : List ExpenseData) (month year : Int) (docs : List FireDoc) :
    ((buildMonthlyIncomeData pIso incomes).map MonthlyIncome.name = MONTHS_ORDER)
    ∧ ((buildMonthlyExpenseData p expenses).map MonthlyExpense.name = MONTHS_ORDER)
    ∧ (∀ k, k ∈ (fetchCategoryData pr month year docs).map CategoryDataPoint.name →
          ∃ d ∈ docs, ∃ v, categoryKey pr month year d = some (k, v))
    ∧ ((summaryGET pr [] [] none none).categoryTotals
        = [("Test Category", JSNum.num 2000)]) := by
  refine ⟨rfl, rfl, ?_, rfl⟩
  intro k hk
  unfold fetchCategoryData at hk
  have hperm := (List.perm_insertionSort byValueDesc
    ((categoryFold pr month year docs []).map
      (fun kv => { name := kv.1, value := kv.2 : CategoryDataPoint }))).map
    CategoryDataPoint.name
  have hk' : k ∈ ((categoryFold pr month year docs []).map
      (fun kv => { name := kv.1, value := kv.2 : CategoryDataPoint })).map
      CategoryDataPoint.name := hperm.mem_iff.mp hk
  rw [List.map_map] at hk'
  have hk'' : k ∈ (categoryFold pr month year docs []).map Prod.fst := by
    simpa [Function.comp] using hk'
  rcases categoryFold_keys pr month year docs [] k hk'' with h | h
  · simp at h
  · exact h

/-- C1 (code bug): the summary endpoint's response over an empty record store
is NOT all zeros — the hard-coded test amounts (income 5000, expense 2000 and
the `"Test Category"` entry) are injected into the production computation, so
the totals are not the sums over stored records alone. -/
theorem summary_injects_test_residue (p : String → JSDate) :
    summaryGET p [] [] none none =
      { totalIncome := 5000, totalExpense := 2000, savings := 3000,
        categoryTotals := [("Test Category", JSNum.num 2000)] } := by
  simp only [summaryGET, List.foldl_nil, jsSub, toNumOrZero]
  norm_num

/-! ## C6: unparseable dates -/

/-- An income document whose stored date is the unparseable string
`"not-a-date"` and whose amount is 50. -/
def badIncomeDoc : FireDoc :=
  { amount := StoredAmount.number (JSNum.num 50), date := RawDate.str "not-a-date" }

/-- The same record in ExpenseChart's shape. -/
def badExpenseData : ExpenseData :=
  { amount := JSNum.num 50, date := RawDate.str "not-a-date" }

theorem months_order_ne_invalid : ∀ m ∈ MONTHS_ORDER, m ≠ "Invalid Date" := by
  decide

/-- C6 (code bug): a record with `date = "not-a-date"`, `amount = 50` is
invisible to the month-mode aggregations — TotalBalanceCard's six-month fetch
and ExpenseChart's monthly buckets are exactly what they would be with the
record absent, with no error — BUT the summary endpoint's window mode leaks:
with both bounds unset, `new Date("not-a-date")` is a truthy Invalid Date
object, `parseFirestoreDate` does not return null for it, and the 50 IS added
to `totalIncome` (5050 against 5000 for the empty store). -/
theorem unparseable_date_excluded_except_summary_leak
    (month year : Int) (incs1 incs2 exps : List FireDoc)
    (expenses : List ExpenseData) :
    (fetchDataTB newDateModel month year (incs1 ++ badIncomeDoc :: incs2) exps
        = fetchDataTB newDateModel month year (incs1 ++ incs2) exps)
    ∧ (buildMonthlyExpenseData newDateModel (badExpenseData :: expenses)
        = buildMonthlyExpenseData newDateModel expenses)
    ∧ ((summaryGET newDateModel [badIncomeDoc] [] none none).totalIncome = 5050)
    ∧ ((summaryGET newDateModel [] [] none none).totalIncome = 5000)
    ∧ ((summaryGET newDateModel [badIncomeDoc] [] (some 0) none).totalIncome = 5000) := by
  refine ⟨?_, ?_, ?_, by norm_num [summaryGET, toNumOrZero], ?_⟩
  case refine_3 =>
    have hfold : List.foldl (incomeStep newDateModel none none) (JSNum.num 5000)
        [badIncomeDoc] = JSNum.num (5000 + 50) := rfl
    show toNumOrZero (List.foldl (incomeStep newDateModel none none) (JSNum.num 5000)
      [badIncomeDoc]) = 5050
    rw [hfold]
    show (5000 + 50 : ℚ) = 5050
    norm_num
  case refine_4 =>
    have hnd : newDateModel "not-a-date" = JSDate.invalid := by decide
    have hfold : List.foldl (incomeStep newDateModel (some 0) none) (JSNum.num 5000)
        [badIncomeDoc] = JSNum.num 5000 := by
      simp only [List.foldl_cons, List.foldl_nil, incomeStep, isWithinRange,
        badIncomeDoc, parseFirestoreDate]
      rw [if_neg (by decide : ¬ ("not-a-date" : String) = "")]
      simp [hnd, jsGeMs]
    show toNumOrZero (List.foldl (incomeStep newDateModel (some 0) none) (JSNum.num 5000)
      [badIncomeDoc]) = 5000
    rw [hfold]
    rfl
  · have hadm : ∀ tm ty : Int, tbAdmitted newDateModel tm ty badIncomeDoc = none := by
      intro tm ty
      rfl
    have hmt : ∀ tm ty : Int,
        monthTotalOf newDateModel tm ty (incs1 ++ badIncomeDoc :: incs2)
          = monthTotalOf newDateModel tm ty (incs1 ++ incs2) := by
      intro tm ty
      unfold monthTotalOf
      rw [List.filterMap_append, List.filterMap_cons, hadm, List.filterMap_append]
    have hmo : ∀ i : Int,
        tbMonthOf newDateModel month year (incs1 ++ badIncomeDoc :: incs2) exps i
          = tbMonthOf newDateModel month year (incs1 ++ incs2) exps i := by
      intro i
      simp only [tbMonthOf, hmt]
    unfold fetchDataTB
    rw [List.map_congr_left (fun i _ => hmo i)]
  · have hkey : expenseMonthKey newDateModel badExpenseData
        = some ("Invalid Date", 50) := rfl
    unfold buildMonthlyExpenseData
    have hfold : ∀ m ∈ MONTHS_ORDER,
        keyedTotals (expenseMonthKey newDateModel) (badExpenseData :: expenses)
          (fun _ => 0) m
        = keyedTotals (expenseMonthKey newDateModel) expenses (fun _ => 0) m := by
      intro m hm
      have h1 : keyedTotals (expenseMonthKey newDateModel)
          (badExpenseData :: expenses) (fun _ => 0)
          = keyedTotals (expenseMonthKey newDateModel) expenses
              (bumpFn (fun _ => 0) "Invalid Date" 50) := by
        simp [keyedTotals, hkey]
      rw [h1]
      refine keyedTotals_congr_off (expenseMonthKey newDateModel) "Invalid Date"
        expenses _ _ (fun m' hm' => ?_) m (months_order_ne_invalid m hm)
      exact bumpFn_ne _ _ _ hm'
    exact List.map_congr_left (fun m hm => by rw [hfold m hm])

/-! ## C5: the Date Normalizer -/

/-- C5 (amended): both normalizers agree on the three valid representations
of one instant (ISO string, Timestamp wrapper, epoch-seconds object) — with
two deviations from the claim: the route's `parseFirestoreDate` yields null
(unparseable) for a NATIVE Date, and a malformed non-empty string yields
`some Invalid Date` — an invalid date value — rather than the null
unparseable result, in both normalizers.  Absent and unrecognized inputs
yield null, and nothing throws (totality of the embedding). -/
theorem date_normalizer_behaviour (p : String → JSDate) (sec : Int)
    (s : String) (d : JSDate) :
    (parseDate p RawDate.null = none ∧ parseFirestoreDate p RawDate.null = none
      ∧ parseDate p RawDate.other = none ∧ parseFirestoreDate p RawDate.other = none)
    ∧ (parseDate p (RawDate.timestamp sec) = some (JSDate.valid (1000 * sec))
      ∧ parseFirestoreDate p (RawDate.timestamp sec) = some (JSDate.valid (1000 * sec))
      ∧ parseFirestoreDate p (RawDate.secondsObj sec) = some (JSDate.valid (1000 * sec)))
    ∧ (parseDate p (RawDate.date d) = some d)
    ∧ (parseFirestoreDate p (RawDate.date d) = none)
    ∧ (s ≠ "" → p s = JSDate.valid (1000 * sec) →
        parseDate p (RawDate.str s) = some (JSDate.valid (1000 * sec))
        ∧ parseFirestoreDate p (RawDate.str s) = some (JSDate.valid (1000 * sec)))
    ∧ (s ≠ "" → p s = JSDate.invalid →
        parseDate p (RawDate.str s) = some JSDate.invalid
        ∧ parseFirestoreDate p (RawDate.str s) = some JSDate.invalid)
    ∧ (parseDate newDateModel (RawDate.str "2024-01-15")
        = some (JSDate.valid 1705276800000)) := by
  refine ⟨⟨rfl, rfl, rfl, rfl⟩, ⟨rfl, rfl, rfl⟩, rfl, rfl, ?_, ?_, by decide⟩
  · intro hs hp
    constructor
    · simp [parseDate, hs, hp]
    · simp [parseFirestoreDate, hs, hp]
  · intro hs hp
    constructor
    · simp [parseDate, hs, hp]
    · simp [parseFirestoreDate, hs, hp]

/-- C5 counterexample: the malformed string `"not-a-date"` does NOT yield the
explicit unparseable result — both normalizers return `some Invalid Date` —
and the route's normalizer maps a native Date of a valid instant to null
instead of that instant. -/
theorem date_normalizer_invalid_not_null :
    parseFirestoreDate newDateModel (RawDate.str "not-a-date") = some JSDate.invalid
    ∧ parseDate newDateModel (RawDate.str "not-a-date") = some JSDate.invalid
    ∧ parseFirestoreDate newDateModel (RawDate.str "not-a-date") ≠ none
    ∧ parseFirestoreDate newDateModel (RawDate.date (JSDate.valid 1705276800000))
        = none := by
  decide

/-! ## C9: insight bullet parsing -/

/-- C9 (amended): the parser keeps only lines whose trimmed form starts with
the `*` marker, caps the result at 3, and the documented scenario parses to
its two bullets — but the marker is stripped only when the RAW line starts
with `*` (the replace regex is anchored without trimming first); every
returned entry is the trim of `stripLeadingStarChars` of such a line. -/
theorem insight_bullets_behaviour (content : String) :
    (fetchInsightBullets "* Income is stable\n* Spending rose\nrandom text"
        = ["Income is stable", "Spending rose"])
    ∧ (fetchInsightBullets content).length ≤ 3
    ∧ (∀ b ∈ fetchInsightBullets content,
        ∃ line ∈ splitOnChar '\n' (trimChars content.data),
          trimStartsWithStar line = true
          ∧ b = String.mk (trimChars (stripLeadingStarChars line))) := by
  refine ⟨by decide, List.length_take_le 3 _, ?_⟩
  intro b hb
  have hb' := List.mem_of_mem_take hb
  rcases List.mem_map.mp hb' with ⟨line, hline, rfl⟩
  rcases List.mem_filter.mp hline with ⟨hmem, hstar⟩
  exact ⟨line, hmem, hstar, rfl⟩

/-- C9 counterexample: on `"x\n  * Foo"` the admitted bullet line keeps its
marker (`"* Foo"`), so the parse is not "marker stripped" as claimed. -/
theorem insight_marker_not_stripped :
    fetchInsightBullets "x\n  * Foo" = ["* Foo"]
    ∧ fetchInsightBullets "x\n  * Foo" ≠ ["Foo"] := by
  decide

/-! ## C2: positivity of persisted amounts -/

/-- An extracted statement row whose amount is 0. -/
def zeroExtractedTx : ExtractedTransaction :=
  { date := "2024-01-15", description := "refund", amount := 0,
    classifiedAs := TxnKind.expense }

/-- C2 counterexample: the statement-upload save flow persists
`Math.abs(0) = 0` — a store write whose amount is NOT strictly positive —
so the positivity invariant does not hold on every write path. -/
theorem upload_save_persists_zero_amount :
    (handleSaveToFirebase newDateModel (JSDate.valid 0) "u1" [zeroExtractedTx]).map
        (fun w => w.2.amount) = [0]
    ∧ ¬ (0 : ℚ) < (0 : ℚ)
    ∧ (handleSaveToFirebase newDateModel (JSDate.valid 0) "u1" [zeroExtractedTx]).length
        = 1 := by
  refine ⟨?_, by norm_num, rfl⟩
  show [|(0 : ℚ)|] = [0]
  norm_num

theorem handleSubmitIncome_amount_pos (st : IncomeFormState) :
    ∀ doc, handleSubmitIncome st = some doc → 0 < doc.amount := by
  intro doc h
  simp only [handleSubmitIncome] at h
  by_cases h1 : st.amount = ""
      ∨ (if st.source = "Other" then trimString st.customSource else st.source) = ""
      ∨ st.date = none
  · rw [if_pos h1] at h
    exact absurd h (by simp)
  · rw [if_neg h1] at h
    cases hpf : parseFloatModel (normalizeAmount st.amount) with
    | nan =>
        rw [hpf] at h
        exact absurd h (by simp)
    | num q =>
        simp only [hpf] at h
        by_cases hq : q ≤ 0
        · rw [if_pos hq] at h
          exact absurd h (by simp)
        · rw [if_neg hq] at h
          cases hu : st.user with
          | none =>
              rw [hu] at h
              cases hd : st.date <;> rw [hd] at h <;> exact absurd h (by simp)
          | some uid =>
              rw [hu] at h
              cases hd : st.date with
              | none =>
                  rw [hd] at h
                  exact absurd h (by simp)
              | some d =>
                  rw [hd] at h
                  have hdoc := Option.some.inj h
                  have hamt := congrArg IncomeDoc.amount hdoc
                  exact hamt ▸ lt_of_not_le hq

theorem handleSubmitExpense_amount_pos (st : ExpenseFormState) :
    ∀ doc, handleSubmitExpense st = some doc → 0 < doc.amount := by
  intro doc h
  simp only [handleSubmitExpense] at h
  by_cases h1 : st.amount = ""
      ∨ (if st.category = "Other" ∨ st.category = "Misc" then
          trimString st.customCategory else st.category) = ""
      ∨ st.date = none
  · rw [if_pos h1] at h
    exact absurd h (by simp)
  · rw [if_neg h1] at h
    cases hpf : parseFloatModel (normalizeAmount st.amount) with
    | nan =>
        rw [hpf] at h
        exact absurd h (by simp)
    | num q =>
        simp only [hpf] at h
        by_cases hq : q ≤ 0
        · rw [if_pos hq] at h
          exact absurd h (by simp)
        · rw [if_neg hq] at h
          by_cases hc : (st.category = "Other" ∨ st.category = "Misc")
              ∧ trimString st.customCategory = ""
          · rw [if_pos hc] at h
            exact absurd h (by simp)
          · rw [if_neg hc] at h
            cases hu : st.user with
            | none =>
                rw [hu] at h
                cases hd : st.date <;> rw [hd] at h <;> exact absurd h (by simp)
            | some uid =>
                rw [hu] at h
                cases hd : st.date with
                | none =>
                    rw [hd] at h
                    exact absurd h (by simp)
                | some d =>
                    rw [hd] at h
                    have hdoc := Option.some.inj h
                    have hamt := congrArg ExpenseFormDoc.amount hdoc
                    exact hamt ▸ lt_of_not_le hq

/-- C2 (amended): both manual submission forms reject any input whose parsed
amount is NaN or ≤ 0 before any write, and every document they do write has a
strictly positive amount — the `-5`/`0`/`12.50` scenarios behave as
documented — but the statement-upload save flow writes `|amount|` for every
extracted row with no positivity check, so a zero amount is persisted as 0. -/
theorem write_paths_amount_positivity (stI : IncomeFormState)
    (stE : ExpenseFormState) (p : String → JSDate) (now : JSDate)
    (uid : String) (txs : List ExtractedTransaction) :
    (∀ doc, handleSubmitIncome stI = some doc → 0 < doc.amount)
    ∧ (∀ doc, handleSubmitExpense stE = some doc → 0 < doc.amount)
    ∧ ((handleSaveToFirebase p now uid txs).map (fun w => w.2.amount)
        = txs.map (fun tx => |tx.amount|))
    ∧ (handleSubmitIncome { amount := "-5", source := "Salary",
                            date := some (JSDate.valid 0), user := some "u1" } = none)
    ∧ (handleSubmitIncome { amount := "0", source := "Salary",
                            date := some (JSDate.valid 0), user := some "u1" } = none)
    ∧ (handleSubmitIncome { amount := "12.50", source := "Salary",
                            date := some (JSDate.valid 0), user := some "u1" }
        = some { amount := mkRat 1250 100, source := "Salary",
                 date := JSDate.valid 0, userId := "u1" })
    ∧ (mkRat 1250 100 : ℚ) = 12.5 := by
  refine ⟨handleSubmitIncome_amount_pos stI, handleSubmitExpense_amount_pos stE,
    ?_, by decide, by decide, by decide, by norm_num [Rat.mkRat_eq_div]⟩
  simp [handleSaveToFirebase, saveDocOf, List.map_map, Function.comp]

/-! ## C7: export vs on-screen display -/

/-- C7: the sorted monthly list is a permutation of the admitted set (the
export path serializes it whole — one CSV row per admitted record, no
truncation), it is ordered newest first, the on-screen list is its first 50
entries (hence at most 50), and when at most 50 records are admitted the
displayed and exported lists are the same list. -/
theorem export_full_display_capped (p : String → JSDate) (month year : Int)
    (incomeDocs expenseDocs : List TxnDoc) :
    (allMonthlyTransactions p month year incomeDocs expenseDocs).Perm
        (admittedTxns p month year incomeDocs expenseDocs)
    ∧ ((allMonthlyTransactions p month year incomeDocs expenseDocs).map csvRow).length
        = (admittedTxns p month year incomeDocs expenseDocs).length
    ∧ (transactionsToDisplay p month year incomeDocs expenseDocs).length ≤ 50
    ∧ List.Sorted newerFirst (allMonthlyTransactions p month year incomeDocs expenseDocs)
    ∧ ((admittedTxns p month year incomeDocs expenseDocs).length ≤ 50 →
        transactionsToDisplay p month year incomeDocs expenseDocs
          = allMonthlyTransactions p month year incomeDocs expenseDocs) := by
  have hperm := List.perm_insertionSort newerFirst
    (admittedTxns p month year incomeDocs expenseDocs)
  refine ⟨hperm, ?_, List.length_take_le 50 _, List.sorted_insertionSort newerFirst _, ?_⟩
  · rw [List.length_map]
    exact hperm.length_eq
  · intro hle
    have : (allMonthlyTransactions p month year incomeDocs expenseDocs).length ≤ 50 := by
      unfold allMonthlyTransactions
      rw [hperm.length_eq]
      exact hle
    exact List.take_of_length_le this

/-! ## Lemmas: CSV column counting -/

theorem digitChar_not_special (k : Nat) :
    Nat.digitChar k ≠ ',' ∧ Nat.digitChar k ≠ dquote := by
  rcases Nat.lt_or_ge k 16 with h | h
  · interval_cases k <;> exact ⟨by decide, by decide⟩
  · have hstar : Nat.digitChar k = '*' := by
      unfold Nat.digitChar
      repeat rw [if_neg (by omega)]
    rw [hstar]
    exact ⟨by decide, by decide⟩

theorem renderNatFuel_not_special :
    ∀ (fuel n : Nat), ∀ c ∈ renderNatFuel fuel n, c ≠ ',' ∧ c ≠ dquote := by
  intro fuel
  induction fuel with
  | zero => intro n c hc; cases hc
  | succ f ih =>
      intro n c hc
      unfold renderNatFuel at hc
      split at hc
      · rcases List.mem_singleton.mp hc with rfl
        exact digitChar_not_special n
      · rcases List.mem_append.mp hc with h | h
        · exact ih _ c h
        · rcases List.mem_singleton.mp h with rfl
          exact digitChar_not_special _

theorem renderNat_not_special (n : Nat) :
    ∀ c ∈ renderNat n, c ≠ ',' ∧ c ≠ dquote :=
  renderNatFuel_not_special (n + 1) n

theorem renderInt_not_special (i : Int) :
    ∀ c ∈ renderInt i, c ≠ ',' ∧ c ≠ dquote := by
  intro c hc
  unfold renderInt at hc
  split at hc
  · rcases List.mem_cons.mp hc with rfl | h
    · exact ⟨by decide, by decide⟩
    · exact renderNat_not_special _ c h
  · exact renderNat_not_special _ c hc

theorem months_long_not_special :
    ∀ s ∈ MONTHS_LONG, ∀ c ∈ s.data, c ≠ ',' ∧ c ≠ dquote := by
  decide

theorem monthLong_getD_mem : ∀ i, i < 12 → MONTHS_LONG.getD i "January" ∈ MONTHS_LONG := by
  decide

theorem monthLong_not_special (i : Nat) :
    ∀ c ∈ (monthLong i).data, c ≠ ',' ∧ c ≠ dquote := by
  intro c hc
  unfold monthLong at hc
  rcases Nat.lt_or_ge i 12 with h | h
  · exact months_long_not_special _ (monthLong_getD_mem i h) c hc
  · rw [List.getD_eq_default _ _ (by simpa using h)] at hc
    exact months_long_not_special "January" (by decide) c hc

theorem twoDigits_not_special (k : Nat) :
    ∀ c ∈ twoDigits k, c ≠ ',' ∧ c ≠ dquote := by
  intro c hc
  unfold twoDigits at hc
  rcases List.mem_cons.mp hc with rfl | h
  · exact digitChar_not_special _
  · rcases List.mem_singleton.mp h with rfl
    exact digitChar_not_special _

theorem fixed2Pos_not_special (q : ℚ) :
    ∀ c ∈ fixed2Pos q, c ≠ ',' ∧ c ≠ dquote := by
  intro c hc
  unfold fixed2Pos at hc
  rcases List.mem_append.mp hc with h | h
  · exact renderNat_not_special _ c h
  · rcases List.mem_cons.mp h with rfl | h'
    · exact ⟨by decide, by decide⟩
    · exact twoDigits_not_special _ c h'

theorem toFixed2_not_special (v : JSNum) :
    ∀ c ∈ (toFixed2 v).data, c ≠ ',' ∧ c ≠ dquote := by
  intro c hc
  cases v with
  | nan =>
      have hd : (toFixed2 JSNum.nan).data = ['N', 'a', 'N'] := rfl
      rw [hd] at hc
      rcases List.mem_cons.mp hc with rfl | hc'
      · exact ⟨by decide, by decide⟩
      rcases List.mem_cons.mp hc' with rfl | hc''
      · exact ⟨by decide, by decide⟩
      rcases List.mem_singleton.mp hc'' with rfl
      exact ⟨by decide, by decide⟩
  | num q =>
      simp only [toFixed2, fixed2] at hc
      by_cases hq : q < 0
      · rw [if_pos hq] at hc
        have hd : (String.mk ('-' :: fixed2Pos (-q))).data = '-' :: fixed2Pos (-q) := rfl
        rw [hd] at hc
        rcases List.mem_cons.mp hc with rfl | h'
        · exact ⟨by decide, by decide⟩
        · exact fixed2Pos_not_special _ c h'
      · rw [if_neg hq] at hc
        have hd : (String.mk (fixed2Pos q)).data = fixed2Pos q := rfl
        rw [hd] at hc
        exact fixed2Pos_not_special _ c hc

theorem csvCommas_cons_other {c : Char} (b : List Char) (q : Bool)
    (h1 : c ≠ ',') (h2 : c ≠ dquote) : csvCommas (c :: b) q = csvCommas b q := by
  simp [csvCommas, h1, h2]

theorem csvCommas_cons_comma_false (b : List Char) :
    csvCommas (',' :: b) false = csvCommas b false + 1 := by
  simp [csvCommas, show (',' : Char) ≠ dquote by decide]

theorem csvCommas_cons_comma_true (b : List Char) :
    csvCommas (',' :: b) true = csvCommas b true := by
  simp [csvCommas, show (',' : Char) ≠ dquote by decide]

theorem csvCommas_dquote_false (b : List Char) :
    csvCommas (dquote :: b) false = csvCommas b true := by
  simp [csvCommas]

theorem csvCommas_dquote_true (b : List Char) :
    csvCommas (dquote :: b) true = csvCommas b false := by
  simp [csvCommas]

theorem csvCommas_append_not_special (a b : List Char) (q : Bool)
    (ha : ∀ c ∈ a, c ≠ ',' ∧ c ≠ dquote) :
    csvCommas (a ++ b) q = csvCommas b q := by
  induction a with
  | nil => rfl
  | cons c cs ih =>
      obtain ⟨h1, h2⟩ := ha c (List.mem_cons_self _ _)
      rw [List.cons_append, csvCommas_cons_other _ _ h1 h2]
      exact ih (fun c' hc' => ha c' (List.mem_cons_of_mem _ hc'))

theorem csvCommas_not_special_eq_zero (a : List Char)
    (ha : ∀ c ∈ a, c ≠ ',' ∧ c ≠ dquote) : csvCommas a false = 0 := by
  have := csvCommas_append_not_special a [] false ha
  simpa using this

/-- Inside a quoted field, escaped (doubled) quotes toggle the state twice
and commas are never counted. -/
theorem csvCommas_escQuotes (s : List Char) (b : List Char) :
    csvCommas (escQuotes s ++ b) true = csvCommas b true := by
  induction s with
  | nil => rfl
  | cons c cs ih =>
      by_cases h : c = dquote
      · subst h
        have he : escQuotes (dquote :: cs) = dquote :: dquote :: escQuotes cs := by
          simp [escQuotes]
        rw [he, List.cons_append, List.cons_append, csvCommas_dquote_true,
          csvCommas_dquote_false]
        exact ih
      · have he : escQuotes (c :: cs) = c :: escQuotes cs := by
          simp [escQuotes, h]
        rw [he, List.cons_append]
        by_cases hc : c = ','
        · subst hc
          rw [csvCommas_cons_comma_true]
          exact ih
        · rw [csvCommas_cons_other _ _ hc h]
          exact ih

theorem csvCommas_quoteField (s : String) (b : List Char) :
    csvCommas (quoteField s ++ b) false = csvCommas b false := by
  unfold quoteField
  rw [List.cons_append, csvCommas_dquote_false, List.append_assoc,
    csvCommas_escQuotes, List.singleton_append, csvCommas_dquote_true]

/-- The unquoted en-US long date field contributes exactly one separator-level
comma (the one after the day). -/
theorem csvCommas_dateLong (ms : Int) (b : List Char) :
    csvCommas ((toLocaleDateStringUS ms).data ++ b) false = csvCommas b false + 1 := by
  show csvCommas (((monthLong (getMonthJS ms)).data
    ++ ' ' :: renderNat (getDateJS ms)
    ++ ',' :: ' ' :: renderInt (getFullYearJS ms)) ++ b) false = csvCommas b false + 1
  simp only [List.append_assoc, List.cons_append]
  rw [csvCommas_append_not_special _ _ _ (monthLong_not_special _)]
  rw [csvCommas_cons_other _ _ (by decide) (by decide)]
  rw [csvCommas_append_not_special _ _ _ (renderNat_not_special _)]
  rw [csvCommas_cons_comma_false]
  rw [csvCommas_cons_other _ _ (by decide) (by decide)]
  rw [csvCommas_append_not_special _ _ _ (renderInt_not_special _)]

/-- Every produced CSV row splits into five quote-aware columns: the four
separators plus the comma embedded in the unquoted date field. -/
theorem csvRow_five_columns (t : Transaction) : csvFieldCount (csvRow t) = 5 := by
  show csvCommas (csvRowChars t) false + 1 = 5
  unfold csvRowChars
  rw [csvCommas_dateLong, csvCommas_cons_comma_false, csvCommas_quoteField,
    csvCommas_cons_comma_false, csvCommas_quoteField, csvCommas_cons_comma_false,
    csvCommas_not_special_eq_zero _ (toFixed2_not_special _)]

/-! ## C8: CSV export shape -/

/-- The concrete exported transaction used as the counterexample input. -/
def cexTxn : Transaction :=
  { id := "t1", title := "Salary", amount := JSNum.num 100,
    ttype := "Income", ms := 1705276800000 }

/-- C8 counterexample: the row produced for a January 15, 2024 income of 100
splits into FIVE quote-aware columns, not four — the unquoted en-US date
field (`January 15, 2024`) contains a comma. -/
theorem csv_row_not_four_columns :
    csvFieldCount (csvRow cexTxn) = 5
    ∧ csvFieldCount (csvRow cexTxn) ≠ 4
    ∧ toLocaleDateStringUS 1705276800000 = "January 15, 2024" := by
  decide

/-- C8 (amended): the export is the header `Date,Title,Type,Amount` plus one
row per transaction; each row is the unquoted en-US long date, the quoted
(quotes doubled) title and type, and the signed amount in two-decimal
`toFixed(2)` form — and because the date field is unquoted and contains a
comma, every row parses to exactly FIVE columns, not four. -/
theorem csv_export_shape (txns : List Transaction) (t : Transaction) :
    (txns.length ≠ 0 → handleDownloadStatement txns
        = some ("Date,Title,Type,Amount\n" ++ joinWithNewline (txns.map csvRow)))
    ∧ csvRow t = String.mk ((toLocaleDateStringUS t.ms).data
        ++ ',' :: (quoteField t.title ++ ',' :: (quoteField t.ttype
        ++ ',' :: (toFixed2 t.amount).data)))
    ∧ csvFieldCount (csvRow t) = 5
    ∧ toFixed2 (JSNum.num 100) = "100.00"
    ∧ toFixed2 (JSNum.num (-40)) = "-40.00" := by
  refine ⟨?_, rfl, csvRow_five_columns t, by decide, by decide⟩
  intro h
  simp [handleDownloadStatement, h]

/-! ## C10: the savings identity of the summary response -/

/-- An amount field that, when number-typed, is not NaN. -/
def amountFinite (d : FireDoc) : Bool :=
  match d.amount with
  | StoredAmount.number JSNum.nan => false
  | _ => true

theorem foldl_incomeStep_num (p : String → JSDate) (fromD toD : Option Int) :
    ∀ (docs : List FireDoc) (q : ℚ), (∀ d ∈ docs, amountFinite d = true) →
      ∃ r : ℚ, docs.foldl (incomeStep p fromD toD) (JSNum.num q) = JSNum.num r := by
  intro docs
  induction docs with
  | nil => exact fun q _ => ⟨q, rfl⟩
  | cons d ds ih =>
      intro q hfin
      rw [List.foldl_cons]
      unfold incomeStep
      split
      · rename_i hcond
        cases hv : d.amount with
        | notNumber =>
            rw [hv] at hcond
            simp [isValidAmount] at hcond
        | number v =>
            cases v with
            | nan =>
                have := hfin d (List.mem_cons_self _ _)
                rw [amountFinite, hv] at this
                cases this
            | num x =>
                show ∃ r : ℚ, ds.foldl (incomeStep p fromD toD)
                  (jsAdd (JSNum.num q) (JSNum.num x)) = JSNum.num r
                exact ih (q + x) (fun d' hd' => hfin d' (List.mem_cons_of_mem _ hd'))
      · exact ih q (fun d' hd' => hfin d' (List.mem_cons_of_mem _ hd'))

theorem foldl_expenseStep_num (p : String → JSDate) (fromD toD : Option Int) :
    ∀ (docs : List FireDoc) (q : ℚ) (cats : List (String × JSNum)),
      (∀ d ∈ docs, amountFinite d = true) →
      ∃ r : ℚ, (docs.foldl (expenseStep p fromD toD) (JSNum.num q, cats)).1 = JSNum.num r := by
  intro docs
  induction docs with
  | nil => exact fun q _ _ => ⟨q, rfl⟩
  | cons d ds ih =>
      intro q cats hfin
      rw [List.foldl_cons]
      unfold expenseStep
      split
      · rename_i hcond
        cases hv : d.amount with
        | notNumber =>
            rw [hv] at hcond
            simp [isValidAmount] at hcond
        | number v =>
            cases v with
            | nan =>
                have := hfin d (List.mem_cons_self _ _)
                rw [amountFinite, hv] at this
                cases this
            | num x =>
                show ∃ r : ℚ, (ds.foldl (expenseStep p fromD toD)
                  (jsAdd (JSNum.num q) (JSNum.num x),
                   bumpAssoc cats (d.category.getD "Other") (JSNum.num x))).1 = JSNum.num r
                exact ih (q + x) _ (fun d' hd' => hfin d' (List.mem_cons_of_mem _ hd'))
      · exact ih q cats (fun d' hd' => hfin d' (List.mem_cons_of_mem _ hd'))

/-- C10 (amended): whenever every stored amount that passes the
`typeof === "number"` check is finite (not NaN), the summary response
satisfies `savings = totalIncome - totalExpense` exactly.  (The response
fields themselves are never NaN in any case — the final isNaN guards force
0 — but the guards are applied to each field independently, so the identity
can fail when a NaN amount flows in; see the counterexample.) -/
theorem summary_savings_identity (p : String → JSDate)
    (incomes expenses : List FireDoc) (fromD toD : Option Int)
    (hfin : ∀ d ∈ incomes ++ expenses, amountFinite d = true) :
    (summaryGET p incomes expenses fromD toD).savings
      = (summaryGET p incomes expenses fromD toD).totalIncome
        - (summaryGET p incomes expenses fromD toD).totalExpense := by
  obtain ⟨r1, h1⟩ := foldl_incomeStep_num p fromD toD incomes 5000
    (fun d hd => hfin d (List.mem_append_left _ hd))
  obtain ⟨r2, h2⟩ := foldl_expenseStep_num p fromD toD expenses 2000
    [("Test Category", JSNum.num 2000)]
    (fun d hd => hfin d (List.mem_append_right _ hd))
  show toNumOrZero (jsSub (incomes.foldl (incomeStep p fromD toD) (JSNum.num 5000))
      (expenses.foldl (expenseStep p fromD toD)
        (JSNum.num 2000, [("Test Category", JSNum.num 2000)])).1)
    = toNumOrZero (incomes.foldl (incomeStep p fromD toD) (JSNum.num 5000))
      - toNumOrZero (expenses.foldl (expenseStep p fromD toD)
          (JSNum.num 2000, [("Test Category", JSNum.num 2000)])).1
  rw [h1, h2]
  rfl

/-- C10 witness: the identity instantiated at the empty store
(3000 = 5000 - 2000). -/
theorem summary_savings_identity_witness :
    (summaryGET newDateModel [] [] none none).savings
      = (summaryGET newDateModel [] [] none none).totalIncome
        - (summaryGET newDateModel [] [] none none).totalExpense :=
  summary_savings_identity newDateModel [] [] none none (by decide)

/-- An income document whose stored amount is NaN (a value Firestore can
hold and `typeof === "number"` admits). -/
def nanIncomeDoc : FireDoc :=
  { amount := StoredAmount.number JSNum.nan, date := RawDate.timestamp 1700000000 }

def smallExpenseDoc : FireDoc :=
  { amount := StoredAmount.number (JSNum.num 5), date := RawDate.timestamp 1700000000,
    category := some "Food" }

/-- C10 counterexample: one NaN income amount and one expense of 5 — the NaN
poisons `totalIncome` (zeroed to 0) and `savings` (NaN − 2005 = NaN, zeroed
to 0), while `totalExpense` is 2005, so `savings ≠ totalIncome − totalExpense`
on a 2xx response. -/
theorem summary_savings_identity_fails_on_nan :
    (summaryGET newDateModel [nanIncomeDoc] [smallExpenseDoc] none none).savings = 0
    ∧ (summaryGET newDateModel [nanIncomeDoc] [smallExpenseDoc] none none).totalIncome = 0
    ∧ (summaryGET newDateModel [nanIncomeDoc] [smallExpenseDoc] none none).totalExpense = 2005
    ∧ (summaryGET newDateModel [nanIncomeDoc] [smallExpenseDoc] none none).savings
        ≠ (summaryGET newDateModel [nanIncomeDoc] [smallExpenseDoc] none none).totalIncome
          - (summaryGET newDateModel [nanIncomeDoc] [smallExpenseDoc] none none).totalExpense := by
  have hexp : (summaryGET newDateModel [nanIncomeDoc] [smallExpenseDoc] none none).totalExpense
      = 2005 := by
    show toNumOrZero ([smallExpenseDoc].foldl (expenseStep newDateModel none none)
      (JSNum.num 2000, [("Test Category", JSNum.num 2000)])).1 = 2005
    have : ([smallExpenseDoc].foldl (expenseStep newDateModel none none)
        (JSNum.num 2000, [("Test Category", JSNum.num 2000)])).1
        = JSNum.num (2000 + 5) := rfl
    rw [this]
    show (2000 + 5 : ℚ) = 2005
    norm_num
  refine ⟨rfl, rfl, hexp, ?_⟩
  rw [hexp]
  have hs : (summaryGET newDateModel [nanIncomeDoc] [smallExpenseDoc] none none).savings = 0 := rfl
  have hi : (summaryGET newDateModel [nanIncomeDoc] [smallExpenseDoc] none none).totalIncome = 0 := rfl
  rw [hs, hi]
  norm_num
